import Mathlib

/-!
# Verification of the Sensory audio-detection core

Shallow embedding of the repository's event bus (`src/js/core/event-bus.js`),
state machine (`src/preview/feature-restructure/js/core/state-machine.js`),
audio detector (`src/preview/feature-restructure/js/browser-audio-detector.js`,
`src/js/themes/audio/audioProcessor.js`) and the restructured audio processor
(the unnamed module whose `finishCalibration` performs the 75th-percentile
auto-threshold calibration).

JS numbers that hold volumes/thresholds are modelled as `ℚ`; timestamps
(`Date.now()` milliseconds) as `ℤ`; raw byte samples as `ℕ`.  Debug logging,
`console` output and DOM work are omitted; every state mutation, published
event and early return of the modelled functions is kept.
-/

namespace Sensory

/-! ## State machine (`state-machine.js`) -/

namespace StateMachine

/-- The six application states (`AppStates` object, state-machine.js lines 8-15). -/
inductive AppState where
  | initializing
  | ready
  | running
  | calibrating
  | paused
  | error
  deriving DecidableEq, Repr

/-- The fixed transition table (`validTransitions`, state-machine.js lines 18-25). -/
def validTransitions : AppState → List AppState
  | .initializing => [.ready, .error]
  | .ready => [.running, .calibrating, .error]
  | .running => [.paused, .ready, .error]
  | .calibrating => [.ready, .running, .error]
  | .paused => [.running, .ready, .error]
  | .error => [.initializing, .ready]

/-- `StateMachine.canTransitionTo` (lines 121-134): the target must appear in the
current state's row of the table.  (`validTransitions[this.currentState]` is
defined for every state, so the `validNextStates &&` guard never fires.) -/
def canTransitionTo (current target : AppState) : Bool :=
  (validTransitions current).contains target

/-- One entry of `stateHistory`.  `DEBUG.detail` is `true`, so successful
transitions record a copy of their `data`; the constructor's initial record
passes no `data` key (modelled as `none`), and `transition`/`forceState`
record the (possibly empty) data object (`some`/`none` for `{}`). -/
structure HistoryEntry (α : Type) where
  fromState : Option AppState
  toState : AppState
  timestamp : ℤ
  reason : String
  data : Option α
  deriving DecidableEq, Repr

/-- Events emitted on the bus by the state machine.  `α` is the type of the
`data` payload attached to a transition. -/
inductive SMEvent (α : Type) where
  | stateChanged (fromState : Option AppState) (toState : AppState)
      (data : Option α) (reason : String)
  | stateForced (fromState : AppState) (toState : AppState)
      (data : Option α) (reason : String)
  | stateTransitionInvalid (fromState : AppState) (toState : AppState) (reason : String)
  deriving DecidableEq, Repr

/-- The mutable fields of the `StateMachine` class (constructor, lines 53-67).
`stateData` is `none` for the empty object `{}`. -/
structure Machine (α : Type) where
  currentState : AppState
  previousState : Option AppState
  stateData : Option α
  stateHistory : List (HistoryEntry α)
  maxHistoryLength : ℕ
  deriving DecidableEq, Repr

/-- `recordStateTransition` (lines 160-175): push the entry, then `shift()` the
oldest entry when the history exceeds `maxHistoryLength`.  (`DEBUG.history` is
`true`, so the early return never fires.) -/
def recordStateTransition (m : Machine α) (e : HistoryEntry α) : Machine α :=
  let h := m.stateHistory ++ [e]
  { m with stateHistory := if h.length > m.maxHistoryLength then h.tail else h }

/-- Result of `transition`/`forceState`: the boolean return value, the updated
machine, the events published on the bus, and the states written to the
settings store (`settingsManager.set('app.currentState', …)`). -/
structure TransitionResult (α : Type) where
  returnValue : Bool
  machine : Machine α
  emitted : List (SMEvent α)
  settingsWrites : List AppState
  deriving DecidableEq, Repr

/-- `StateMachine.transition` (lines 76-116).  `now` is the tick's
`Date.now()` value. -/
def transition (m : Machine α) (newState : AppState) (data : Option α)
    (reason : String) (now : ℤ) : TransitionResult α :=
  if canTransitionTo m.currentState newState then
    let prev := m.currentState
    let m1 : Machine α :=
      { m with previousState := some prev, currentState := newState, stateData := data }
    let m2 := recordStateTransition m1
      { fromState := some prev, toState := newState, timestamp := now,
        reason := reason, data := data }
    { returnValue := true, machine := m2,
      emitted := [.stateChanged (some prev) newState data reason],
      settingsWrites := [newState] }
  else
    { returnValue := false, machine := m,
      emitted := [.stateTransitionInvalid m.currentState newState reason],
      settingsWrites := [] }

/-- `StateMachine.forceState` (lines 194-229): bypasses the table, records a
`FORCED:` history entry and publishes both `state-forced` and `state-changed`. -/
def forceState (m : Machine α) (state : AppState) (data : Option α)
    (reason : String) (now : ℤ) : TransitionResult α :=
  let prev := m.currentState
  let m1 : Machine α :=
    { m with previousState := some prev, currentState := state, stateData := data }
  let m2 := recordStateTransition m1
    { fromState := some prev, toState := state, timestamp := now,
      reason := "FORCED: " ++ reason, data := data }
  { returnValue := true, machine := m2,
    emitted := [.stateForced prev state data reason,
                .stateChanged (some prev) state data ("FORCED: " ++ reason)],
    settingsWrites := [state] }

/-- `StateMachine.reset` (lines 234-237): `forceState(INITIALIZING, {}, 'system reset')`. -/
def reset (m : Machine α) (now : ℤ) : TransitionResult α :=
  forceState m .initializing none "system reset" now

/-- The constructor (lines 53-67): initial state `INITIALIZING`, capacity 20,
and one initial history record `null → INITIALIZING` with reason
`'initialization'`. -/
def initialMachine (α : Type) (now : ℤ) : Machine α :=
  recordStateTransition
    { currentState := .initializing, previousState := none, stateData := none,
      stateHistory := [], maxHistoryLength := 20 }
    { fromState := none, toState := .initializing, timestamp := now,
      reason := "initialization", data := none }

/-- A call to the machine's public mutators. -/
inductive SMOp (α : Type) where
  | transitionOp (target : AppState) (data : Option α) (reason : String) (now : ℤ)
  | forceStateOp (target : AppState) (data : Option α) (reason : String) (now : ℤ)
  | resetOp (now : ℤ)
  deriving DecidableEq, Repr

/-- The machine reached after one call. -/
def applySMOp (m : Machine α) : SMOp α → Machine α
  | .transitionOp t d r n => (transition m t d r n).machine
  | .forceStateOp t d r n => (forceState m t d r n).machine
  | .resetOp n => (reset m n).machine

/-- The machine reached after a sequence of calls. -/
def runSMOps (m : Machine α) (ops : List (SMOp α)) : Machine α :=
  ops.foldl applySMOp m

/-- The history entry a call hands to `recordStateTransition`, if any
(a rejected `transition` records nothing). -/
def recordedEntry (m : Machine α) : SMOp α → Option (HistoryEntry α)
  | .transitionOp t d r n =>
      if canTransitionTo m.currentState t then
        some { fromState := some m.currentState, toState := t, timestamp := n,
               reason := r, data := d }
      else none
  | .forceStateOp t d r n =>
      some { fromState := some m.currentState, toState := t, timestamp := n,
             reason := "FORCED: " ++ r, data := d }
  | .resetOp n =>
      some { fromState := some m.currentState, toState := .initializing, timestamp := n,
             reason := "FORCED: " ++ "system reset", data := none }

/-- Every entry recorded during a call sequence, oldest first. -/
def fullLog (m : Machine α) : List (SMOp α) → List (HistoryEntry α)
  | [] => []
  | op :: rest => (recordedEntry m op).toList ++ fullLog (applySMOp m op) rest

end StateMachine

/-! ## Event bus (`event-bus.js`) -/

namespace EventBus

/-- The dynamic type of a JS argument, as far as `typeof` checks in
`on`/`emit` can tell: a string, a function (identified by a token), or
anything else. -/
inductive JSArg where
  | str (s : String)
  | func (f : ℕ)
  | other
  deriving DecidableEq, Repr

def JSArg.isStr : JSArg → Bool
  | .str _ => true
  | _ => false

def JSArg.isFunc : JSArg → Bool
  | .func _ => true
  | _ => false

/-- `this.stats` (constructor, event-bus.js lines 35-40).  `eventCounts` is an
association list keyed by event name; `activeSubscriptions` is an `ℤ` because
the code decrements it. -/
structure Stats where
  totalEvents : ℕ
  eventCounts : List (String × ℕ)
  peakListenerCount : ℕ
  activeSubscriptions : ℤ
  deriving DecidableEq, Repr

/-- The bus: the `subscribers` Map (insertion-ordered association list; each
value is a JS `Set` of callbacks, modelled as a duplicate-free list in
insertion order) plus the statistics. -/
structure BusState where
  subscribers : List (String × List ℕ)
  stats : Stats
  deriving DecidableEq, Repr

/-- `this.subscribers.get(eventName)`. -/
def getSubs (bus : BusState) (e : String) : Option (List ℕ) :=
  (bus.subscribers.find? (fun p => p.1 = e)).map (·.2)

/-- Replace the value stored under key `e`, or append a new Map entry. -/
def setSubs (bus : BusState) (e : String) (l : List ℕ) : BusState :=
  if (bus.subscribers.find? (fun p => p.1 = e)).isSome then
    { bus with subscribers :=
        bus.subscribers.map (fun p => if p.1 = e then (e, l) else p) }
  else
    { bus with subscribers := bus.subscribers ++ [(e, l)] }

/-- Remove the Map entry for key `e`. -/
def delSubs (bus : BusState) (e : String) : BusState :=
  { bus with subscribers := bus.subscribers.filter (fun p => ¬ p.1 = e) }

/-- `EventBus.on` (lines 51-86).  Throws (`Except.error`, leaving the caller's
bus untouched) when the event name is not a string or the callback is not a
function; otherwise adds the callback to the event's `Set` (`Set.add` is a
no-op for a callback already present) and updates the statistics
(`activeSubscriptions` is incremented unconditionally, `peakListenerCount`
takes the post-add set size).  The returned unsubscribe closure is not
modelled. -/
def onEvent (bus : BusState) (eventName callback : JSArg) : Except String BusState :=
  match eventName with
  | .str e =>
    match callback with
    | .func f =>
      let cur := (getSubs bus e).getD []
      let newSet := if f ∈ cur then cur else cur ++ [f]
      let bus1 := setSubs bus e newSet
      .ok { bus1 with stats :=
        { bus1.stats with
            activeSubscriptions := bus1.stats.activeSubscriptions + 1,
            peakListenerCount := max bus1.stats.peakListenerCount newSet.length } }
    | _ => .error "Event callback must be a function"
  | _ => .error "Event name must be a string"

/-- `EventBus.off` (lines 112-135): returns `false` when the event has no
subscriber list, otherwise deletes the callback from the `Set` (decrementing
`activeSubscriptions` and pruning the now-empty Map entry when the delete
succeeded) and returns whether it was present. -/
def off (bus : BusState) (e : String) (f : ℕ) : BusState × Bool :=
  match getSubs bus e with
  | none => (bus, false)
  | some cur =>
    if f ∈ cur then
      let rest := cur.filter (fun g => ¬ g = f)
      let bus1 := if rest.length = 0 then delSubs bus e else setSubs bus e rest
      ({ bus1 with stats :=
          { bus1.stats with activeSubscriptions := bus1.stats.activeSubscriptions - 1 } },
        true)
    else (bus, false)

/-- `eventCounts[eventName] = (eventCounts[eventName] || 0) + 1`. -/
def bumpCount (m : List (String × ℕ)) (e : String) : List (String × ℕ) :=
  if (m.find? (fun p => p.1 = e)).isSome then
    m.map (fun p => if p.1 = e then (p.1, p.2 + 1) else p)
  else m ++ [(e, 1)]

/-- The observable outcome of the `subscribers.forEach` loop in `emit`
(lines 178-190): the callbacks invoked (in order, with the payload they
received) and the error messages caught and logged by the per-callback
`try`/`catch`. -/
structure DispatchOutcome (π : Type) where
  invocations : List (ℕ × π)
  loggedErrors : List String
  deriving DecidableEq, Repr

/-- The `subscribers.forEach(callback => { try { callback(data) } catch … })`
loop.  Each callback's behaviour is abstracted by `run`: `.ok` for a normal
return, `.error msg` for a thrown exception — which the `catch` block logs,
after which iteration continues with the next callback. -/
def forEachCallback (run : ℕ → π → Except String Unit) (data : π) :
    List ℕ → DispatchOutcome π
  | [] => { invocations := [], loggedErrors := [] }
  | f :: rest =>
    let tailOutcome := forEachCallback run data rest
    match run f data with
    | .ok _ =>
        { invocations := (f, data) :: tailOutcome.invocations,
          loggedErrors := tailOutcome.loggedErrors }
    | .error msg =>
        { invocations := (f, data) :: tailOutcome.invocations,
          loggedErrors := msg :: tailOutcome.loggedErrors }

/-- `EventBus.emit` (lines 142-199) for callbacks that do not touch the bus's
subscriptions (mutation during dispatch is modelled separately by
`emitLive`).  A non-string event name logs an error and returns before the
statistics are touched; otherwise the statistics are updated and every
subscriber of the event is invoked through the guarded loop.  `emit` never
throws: handler exceptions are consumed by `forEachCallback`. -/
def emit (run : ℕ → π → Except String Unit) (bus : BusState)
    (eventName : JSArg) (data : π) : BusState × DispatchOutcome π :=
  match eventName with
  | .str e =>
    let subs := (getSubs bus e).getD []
    let bus1 : BusState := { bus with stats :=
      { bus.stats with
          totalEvents := bus.stats.totalEvents + 1,
          eventCounts := bumpCount bus.stats.eventCounts e } }
    if subs.length > 0 then
      (bus1, forEachCallback run data subs)
    else
      (bus1, { invocations := [], loggedErrors := [] })
  | _ => (bus, { invocations := [], loggedErrors := [] })

/-! ### Live iteration of `emit` under subscription mutation (claim C1)

`emit` iterates `subscribers.forEach(...)` directly over the live `Set`; it
never copies it.  Per the ECMAScript `Set.prototype.forEach` semantics the
iteration walks the set's insertion-ordered backing list, in which
`Set.prototype.delete` leaves an empty slot (skipped when reached) and
`Set.prototype.add` of an absent element appends a fresh slot (visited by the
ongoing iteration).  On top of that, `EventBus.off` prunes the Map entry when
the set becomes empty, and a subsequent `EventBus.on` then creates a *new*
set that the ongoing iteration never sees.  The model below captures exactly
this for handlers of the dispatched event that subscribe/unsubscribe handlers
of that same event during dispatch. -/

/-- The backing list of the iterated `Set`: `none` is the empty slot left by a
deletion. -/
abbrev Slots := List (Option ℕ)

/-- A bus call a handler can make during its invocation, for the event being
dispatched. -/
inductive BusOp where
  | offOp (h : ℕ)
  | onOp (h : ℕ)
  deriving DecidableEq, Repr

/-- The subscription state seen mid-dispatch: the iterated set's slots,
whether the `subscribers` Map still holds that very set, and — once the entry
was pruned and re-created — the replacement subscriber list. -/
structure DispatchState where
  slots : Slots
  attached : Bool
  fresh : Option (List ℕ)
  deriving DecidableEq, Repr

/-- Live elements of the iterated set. -/
def liveSubs (st : DispatchState) : List ℕ := st.slots.filterMap id

/-- Effect of one `off`/`on` call made by a handler during dispatch
(`EventBus.off` lines 112-135 / `EventBus.on` lines 51-86, applied to the
set being iterated while it is still the Map's set, and to the Map's
replacement entry after pruning). -/
def applyBusOp (st : DispatchState) : BusOp → DispatchState
  | .offOp h =>
    if st.attached then
      if some h ∈ st.slots then
        let slots' := st.slots.map (fun s => if s = some h then none else s)
        if (slots'.filterMap id).length = 0 then
          { slots := slots', attached := false, fresh := none }
        else { st with slots := slots' }
      else st
    else
      match st.fresh with
      | none => st
      | some l =>
        if h ∈ l then
          let rest := l.filter (fun g => ¬ g = h)
          { st with fresh := if rest.length = 0 then none else some rest }
        else st
  | .onOp h =>
    if st.attached then
      if some h ∈ st.slots then st else { st with slots := st.slots ++ [some h] }
    else
      match st.fresh with
      | none => { st with fresh := some [h] }
      | some l => if h ∈ l then st else { st with fresh := some (l ++ [h]) }

/-- The `forEach` walk over the live slots: cursor `i`, visited slots never
revisited, empty slots skipped, a visited handler's bus calls (`acts h`)
applied before the cursor advances.  `fuel` bounds the number of steps (JS
itself diverges when handlers keep re-adding deleted handlers); every use
below supplies ample fuel. -/
def emitLoop (acts : ℕ → List BusOp) :
    ℕ → DispatchState → ℕ → List ℕ → List ℕ × DispatchState
  | 0, st, _, invoked => (invoked, st)
  | fuel + 1, st, i, invoked =>
    if i < st.slots.length then
      match st.slots.getD i none with
      | none => emitLoop acts fuel st (i + 1) invoked
      | some h =>
        let st' := (acts h).foldl applyBusOp st
        emitLoop acts fuel st' (i + 1) (invoked ++ [h])
    else (invoked, st)

/-- One `emit` dispatch over the event's current subscriber set `subs`, when
each handler `h` performs the bus calls `acts h` during its invocation.
Returns the handlers invoked (in order) and the final subscription state. -/
def emitLive (acts : ℕ → List BusOp) (fuel : ℕ) (subs : List ℕ) :
    List ℕ × DispatchState :=
  emitLoop acts fuel { slots := subs.map some, attached := true, fresh := none } 0 []

/-- A handler set where handler 1 unsubscribes handler 2 during its own
invocation. -/
def removesOther : ℕ → List BusOp := fun h => if h = 1 then [.offOp 2] else []

/-- A handler set where handler 1 subscribes a new handler 3 during its own
invocation. -/
def addsThird : ℕ → List BusOp := fun h => if h = 1 then [.onOp 3] else []

/-- A handler set where handler 1 unsubscribes itself during its own
invocation. -/
def removesSelf : ℕ → List BusOp := fun h => if h = 1 then [.offOp 1] else []

end EventBus

/-! ## Audio detector (`browser-audio-detector.js` / `audioProcessor.js`)

`BrowserAudioDetector.update` and the non-Edge path of
`AudioProcessor.update` (audioProcessor.js) share the calibration, cooldown
and detection logic verbatim.  The per-tick logic below is translated from
`BrowserAudioDetector.update` (lines 453-568) from the point where the tick's
RMS volume has been computed from the analyser buffer; the tick's volume is a
parameter — exactly the structure of `AudioProcessor.update`, where
`rawVolume = this.analyzer.getLevel()` is read from the gateway.  The RMS
computation itself (lines 460-466) is modelled separately below (`rms`).
JS `array.sort((a, b) => a - b)` sorts ascending; it is modelled by
`List.insertionSort (· ≤ ·)`, which produces the same sorted list. -/

namespace BrowserAudioDetector

/-- The detector fields read or written by `update`/`setThreshold`
(constructor, browser-audio-detector.js lines 36-81).  Times are
`Date.now()` milliseconds (`ℤ`), volumes are `ℚ`. -/
structure Detector where
  threshold : ℚ
  prevVolume : ℚ
  currentVolume : ℚ
  volumeHistory : List ℚ
  baselineVolume : ℚ
  calibrating : Bool
  calibrationSamples : List ℚ
  calibrationDuration : ℕ
  cooldownTime : ℤ
  lastTriggerTime : ℤ
  isEnabled : Bool
  deriving DecidableEq, Repr

/-- Events the detector publishes on the bus during `update`/`setThreshold`.
(The conditional `stateMachine.transition(READY)` performed when calibration
completes is outside this model: it mutates the state machine, not the
detector.) -/
inductive AudioEvent where
  | calibrationCompleted (baselineVolume : ℚ) (samples : ℕ) (minS maxS median : ℚ)
  | calibrationProgress (progress : ℚ) (samples total : ℕ)
  | volumeUpdated (raw relative average : ℚ)
  | soundDetected (intensity : ℚ)
  | thresholdChanged (threshold : ℚ)
  deriving DecidableEq, Repr

/-- The non-linear sensitivity mapping inside `setThreshold`
(browser-audio-detector.js lines 416-438 = audioProcessor.js lines 237-252):
piecewise-linear scaling followed by
`Math.max(0.01, Math.min(0.3, scaledValue))`. -/
def scaledThreshold (value : ℚ) : ℚ :=
  let scaledValue :=
    if value < 3/10 then 1/100 + (value / (3/10)) * (4/100)
    else 5/100 + ((value - 3/10) / (7/10)) * (25/100)
  max (1/100) (min (3/10) scaledValue)

/-- `setThreshold` stores the scaled value and publishes
`audio-threshold-changed` (the `settingsManager.set` persistence call is not
part of the detector's state). -/
def setThreshold (d : Detector) (value : ℚ) : Detector × List AudioEvent :=
  ({ d with threshold := scaledThreshold value },
   [.thresholdChanged (scaledThreshold value)])

/-- `update` (lines 453-568), given the tick's clock value `now` and the
tick's raw RMS volume.  Returns the new detector state, the published events
in order, and the function's return value. -/
def update (d : Detector) (now : ℤ) (rmsV : ℚ) : Detector × List AudioEvent × ℚ :=
  if ¬ d.isEnabled then (d, [], 0)
  else if d.calibrating then
    let samples := d.calibrationSamples ++ [rmsV]
    if samples.length ≥ d.calibrationDuration then
      let sortedSamples := samples.insertionSort (· ≤ ·)
      let medianIndex := sortedSamples.length / 2
      let baseline := sortedSamples.getD medianIndex 0 + 1/100
      ({ d with calibrationSamples := samples, baselineVolume := baseline,
                calibrating := false },
       [.calibrationCompleted baseline samples.length
          (sortedSamples.getD 0 0) (sortedSamples.getD (sortedSamples.length - 1) 0)
          baseline,
        .calibrationProgress ((samples.length : ℚ) / d.calibrationDuration)
          samples.length d.calibrationDuration],
       rmsV)
    else
      ({ d with calibrationSamples := samples },
       [.calibrationProgress ((samples.length : ℚ) / d.calibrationDuration)
          samples.length d.calibrationDuration],
       rmsV)
  else
    let volumeHistory := d.volumeHistory.tail ++ [rmsV]
    let relativeVolume := max 0 (rmsV - d.baselineVolume)
    let volumeChange := relativeVolume - d.prevVolume
    let avgRecent := (volumeHistory.drop (volumeHistory.length - 5)).sum / 5
    let d1 : Detector :=
      { d with volumeHistory := volumeHistory, prevVolume := relativeVolume,
               currentVolume := avgRecent }
    let baseEvents := [AudioEvent.volumeUpdated rmsV relativeVolume avgRecent]
    if now - d.lastTriggerTime > d.cooldownTime ∧
        (volumeChange > d.threshold ∨
         (relativeVolume > d.threshold * 3 ∧ volumeChange > -(1/100))) then
      let intensity := min 1 (relativeVolume / (d.threshold * 5))
      ({ d1 with lastTriggerTime := now },
       baseEvents ++ [.soundDetected intensity], rmsV)
    else (d1, baseEvents, rmsV)

/-- Whether a tick's `update` fired `sound-detected`. -/
def fires (d : Detector) (now : ℤ) (rmsV : ℚ) : Bool :=
  (update d now rmsV).2.1.any (fun e => match e with
    | .soundDetected _ => true
    | _ => false)

/-- The detector after a sequence of ticks `(now, volume)`. -/
def runUpdates (d : Detector) (ticks : List (ℤ × ℚ)) : Detector :=
  ticks.foldl (fun s t => (update s t.1 t.2).1) d

/-- The clock values of the ticks whose `update` published `sound-detected`,
in trace order. -/
def detections : Detector → List (ℤ × ℚ) → List ℤ
  | _, [] => []
  | d, (now, v) :: rest =>
    (if fires d now v then [now] else []) ++ detections (update d now v).1 rest

/-! ### RMS computation (lines 457-466, claim C7)

`getByteTimeDomainData` fills `dataArray` with bytes in `0‥255`; each is
recentred by `(dataArray[i] - 128) / 128` and the RMS is the square root of
the mean square. -/

/-- `(dataArray[i] - 128) / 128`. -/
def amplitude (v : ℕ) : ℚ := ((v : ℚ) - 128) / 128

/-- A calibrated, enabled detector with the constructor's defaults
(threshold `0.05`, cooldown `300` ms, 30-sample history), baseline `0`, and a
last trigger placed more than one cooldown before the synthetic trace origin
`t = 0`. -/
def spikeDetector : Detector :=
  { threshold := 1/20, prevVolume := 0, currentVolume := 0,
    volumeHistory := List.replicate 30 0, baselineVolume := 0,
    calibrating := false, calibrationSamples := [], calibrationDuration := 60,
    cooldownTime := 300, lastTriggerTime := -1000, isEnabled := true }

/-- An enabled detector mid-calibration expecting six samples. -/
def calDetector : Detector :=
  { threshold := 1/20, prevVolume := 0, currentVolume := 0,
    volumeHistory := List.replicate 30 0, baselineVolume := 0,
    calibrating := true, calibrationSamples := [], calibrationDuration := 6,
    cooldownTime := 300, lastTriggerTime := 0, isEnabled := true }

/-- `calDetector` after five of its six calibration ticks. -/
def almostCalibrated : Detector :=
  { calDetector with calibrationSamples := [1/100, 2/100, 3/100, 4/100, 5/100] }

/-- `sumSquares / dataArray.length` for the whole buffer. -/
def meanSquare (buffer : List ℕ) : ℚ :=
  (buffer.map (fun v => amplitude v * amplitude v)).sum / buffer.length

/-- `Math.sqrt(sumSquares / dataArray.length)`. -/
noncomputable def rms (buffer : List ℕ) : ℝ :=
  Real.sqrt ((meanSquare buffer : ℚ) : ℝ)

end BrowserAudioDetector

/-! ## Restructured audio processor (`finishCalibration`, claim C5)

The restructured `AudioProcessor` class (the module importing
`../../core/event-bus.js`) runs a wall-clock calibration; `finishCalibration`
(its lines 712-772) converts the collected samples into a 75th-percentile
noise baseline and an auto threshold, or — with zero samples — publishes
`audio-calibration-failed` and leaves the baseline alone. -/

namespace CoreAudioProcessor

/-- The processor fields read or written by `finishCalibration`
(constructor: `detectionSettings.threshold`, `detectionSettings.autoThresholdTarget`,
`baselineNoiseLevel`, `calibrationSamples`, `calibrationInProgress`,
`isRunning`). -/
structure Processor where
  calibrationInProgress : Bool
  calibrationSamples : List ℚ
  baselineNoiseLevel : ℚ
  threshold : ℚ
  autoThresholdTarget : ℚ
  isRunning : Bool
  deriving DecidableEq, Repr

/-- Events `finishCalibration` publishes.  The `audio-threshold-changed`
payload's sample statistics are kept to the fields the claims mention. -/
inductive CoreEvent where
  | thresholdChanged (threshold baselineNoise : ℚ) (calibrationSamples : ℕ)
  | calibrationFailed (reason : String)
  | calibrationCompleted
  deriving DecidableEq, Repr

/-- `finishCalibration` (lines 712-772).  Returns the new processor state,
the published events in order, and the `settingsManager.set` writes. -/
def finishCalibration (p : Processor) : Processor × List CoreEvent × List (String × ℚ) :=
  if ¬ p.calibrationInProgress then (p, [], [])
  else
    let p1 : Processor := { p with calibrationInProgress := false }
    if p.calibrationSamples.length > 0 then
      let sortedSamples := p.calibrationSamples.insertionSort (· ≤ ·)
      let p75Index := sortedSamples.length * 3 / 4
      let baseline := sortedSamples.getD p75Index 0
      let targetThreshold := baseline * (1 + p.autoThresholdTarget)
      let threshold := max (5/100) (min (1/2) targetThreshold)
      ({ p1 with baselineNoiseLevel := baseline, threshold := threshold },
       [.thresholdChanged threshold baseline p.calibrationSamples.length,
        .calibrationCompleted],
       [("audio.threshold", threshold)])
    else
      (p1, [.calibrationFailed "No samples collected", .calibrationCompleted], [])

end CoreAudioProcessor

/-! ## Theorems -/

open StateMachine EventBus BrowserAudioDetector CoreAudioProcessor

/-- C2: a `transition` call whose target is not a successor of the current
state in the transition table leaves the whole machine (current state,
previous state, state data, history) unchanged, publishes exactly one
`state-transition-invalid` event with payload `{from, to, reason}`, returns
`false`, and performs no settings write; and `Running` is not a table
successor of `Initializing`, so that transition in particular is rejected. -/
theorem transition_invalid_rejected :
    (∀ (α : Type) (m : Machine α) (t : AppState) (data : Option α)
        (reason : String) (now : ℤ),
        canTransitionTo m.currentState t = false →
        transition m t data reason now =
          { returnValue := false, machine := m,
            emitted := [.stateTransitionInvalid m.currentState t reason],
            settingsWrites := [] }) ∧
    canTransitionTo .initializing .running = false := by
  refine ⟨fun α m t data reason now h => ?_, by decide⟩
  simp [transition, h]

/-- C2 witness: on the freshly constructed machine (state `Initializing`),
`transition(Running)` is rejected, everything is left unchanged and only
`state-transition-invalid` is published. -/
theorem transition_invalid_rejected_witness :
    canTransitionTo (initialMachine ℕ 0).currentState .running = false ∧
    transition (initialMachine ℕ 0) .running none "go" 5 =
      { returnValue := false, machine := initialMachine ℕ 0,
        emitted := [.stateTransitionInvalid
          (initialMachine ℕ 0).currentState .running "go"],
        settingsWrites := [] } :=
  ⟨by decide, transition_invalid_rejected.1 ℕ (initialMachine ℕ 0) .running
      none "go" 5 (by decide)⟩

/-- C5: `finishCalibration` on an in-progress session with zero collected
samples publishes `audio-calibration-failed` with a reason string (followed
by the unconditional `audio-calibration-completed`), leaves
`baselineNoiseLevel` and the threshold at their prior values, writes nothing
to settings, and leaves `isRunning` untouched — the processor keeps
running; only the in-progress flag is cleared. -/
theorem finishCalibration_empty_samples (p : Processor)
    (h1 : p.calibrationInProgress = true) (h2 : p.calibrationSamples = []) :
    finishCalibration p =
      ({ p with calibrationInProgress := false },
       [.calibrationFailed "No samples collected", .calibrationCompleted], []) ∧
    (finishCalibration p).1.baselineNoiseLevel = p.baselineNoiseLevel ∧
    (finishCalibration p).1.threshold = p.threshold ∧
    (finishCalibration p).1.isRunning = p.isRunning := by
  have h : finishCalibration p =
      ({ p with calibrationInProgress := false },
       [.calibrationFailed "No samples collected", .calibrationCompleted], []) := by
    simp [finishCalibration, h1, h2]
  exact ⟨h, by rw [h], by rw [h], by rw [h]⟩

/-- C5 witness: a concrete running processor mid-calibration with no samples. -/
theorem finishCalibration_empty_samples_witness :
    finishCalibration
        { calibrationInProgress := true, calibrationSamples := [],
          baselineNoiseLevel := 7/100, threshold := 1/10,
          autoThresholdTarget := 1/5, isRunning := true } =
      ({ calibrationInProgress := false, calibrationSamples := [],
         baselineNoiseLevel := 7/100, threshold := 1/10,
         autoThresholdTarget := 1/5, isRunning := true },
       [.calibrationFailed "No samples collected", .calibrationCompleted], []) :=
  (finishCalibration_empty_samples
    { calibrationInProgress := true, calibrationSamples := [],
      baselineNoiseLevel := 7/100, threshold := 1/10,
      autoThresholdTarget := 1/5, isRunning := true } rfl rfl).1

/-- C10: `on` throws (and, the thrown call returning no new bus state,
records no subscription) when the event name is not a string or the callback
is not a function, while `emit` with a non-string event name does not throw:
it returns with the bus — statistics included — unchanged and with no
callback invoked. -/
theorem on_validates_emit_skips :
    (∀ (bus : BusState) (e c : JSArg), e.isStr = false →
        onEvent bus e c = .error "Event name must be a string") ∧
    (∀ (bus : BusState) (e c : JSArg), e.isStr = true → c.isFunc = false →
        onEvent bus e c = .error "Event callback must be a function") ∧
    (∀ (π : Type) (run : ℕ → π → Except String Unit) (bus : BusState)
        (e : JSArg) (data : π), e.isStr = false →
        emit run bus e data = (bus, { invocations := [], loggedErrors := [] })) := by
  refine ⟨fun bus e c he => ?_, fun bus e c he hc => ?_, fun π run bus e data he => ?_⟩
  · cases e <;> simp_all [JSArg.isStr, onEvent]
  · cases e with
    | str s => cases c <;> simp_all [JSArg.isFunc, onEvent]
    | func f => simp [JSArg.isStr] at he
    | other => simp [JSArg.isStr] at he
  · cases e <;> simp_all [JSArg.isStr, emit]

/-- C10 witness: a numeric event name is rejected by `on` and ignored by
`emit` on a concrete bus with one live subscription. -/
theorem on_validates_emit_skips_witness :
    onEvent
        { subscribers := [("sound-detected", [4])],
          stats := { totalEvents := 2, eventCounts := [("sound-detected", 2)],
                     peakListenerCount := 1, activeSubscriptions := 1 } }
        .other (.func 9) = .error "Event name must be a string" ∧
    emit (fun _ _ => .ok ())
        { subscribers := [("sound-detected", [4])],
          stats := { totalEvents := 2, eventCounts := [("sound-detected", 2)],
                     peakListenerCount := 1, activeSubscriptions := 1 } }
        .other (0 : ℕ) =
      ({ subscribers := [("sound-detected", [4])],
         stats := { totalEvents := 2, eventCounts := [("sound-detected", 2)],
                    peakListenerCount := 1, activeSubscriptions := 1 } },
       { invocations := [], loggedErrors := [] }) :=
  ⟨on_validates_emit_skips.1 _ .other (.func 9) rfl,
   on_validates_emit_skips.2.2 ℕ (fun _ _ => .ok ()) _ .other 0 rfl⟩

/-- The guarded `forEach` loop invokes every callback of the list with the
payload, whatever each callback does, and logs exactly the thrown messages. -/
theorem forEachCallback_spec (run : ℕ → π → Except String Unit) (data : π)
    (l : List ℕ) :
    forEachCallback run data l =
      { invocations := l.map (fun f => (f, data)),
        loggedErrors := l.filterMap (fun f =>
          match run f data with
          | .ok _ => none
          | .error msg => some msg) } := by
  induction l with
  | nil => rfl
  | cons f rest ih =>
    simp only [forEachCallback, ih, List.map_cons, List.filterMap_cons]
    cases run f data <;> rfl

/-- C8: during `emit`, a callback that throws is caught — its message is
logged — and every subscriber registered for the event is still invoked, in
registration order, with the payload; the outcome is the same list of
invocations whatever exceptions the callbacks throw, and `emit` returns
normally to the publisher for every callback behaviour `run`. -/
theorem emit_invokes_all_despite_throws :
    ∀ (π : Type) (run : ℕ → π → Except String Unit) (bus : BusState)
      (e : String) (data : π),
      (emit run bus (.str e) data).2.invocations =
        ((getSubs bus e).getD []).map (fun f => (f, data)) ∧
      (emit run bus (.str e) data).2.loggedErrors =
        ((getSubs bus e).getD []).filterMap (fun f =>
          match run f data with
          | .ok _ => none
          | .error msg => some msg) := by
  intro π run bus e data
  simp only [emit]
  by_cases h : ((getSubs bus e).getD []).length > 0
  · simp [h, forEachCallback_spec]
  · have : (getSubs bus e).getD [] = [] := by
      cases hl : (getSubs bus e).getD [] with
      | nil => rfl
      | cons a l => rw [hl] at h; simp at h
    simp [h, this]

/-- The pre-clamp piecewise mapping is monotone on `[0, 1]`. -/
theorem scaledThreshold_raw_mono (x y : ℚ) (_hx : 0 ≤ x) (hxy : x ≤ y) (_hy : y ≤ 1) :
    (if x < 3/10 then 1/100 + (x / (3/10)) * (4/100)
     else 5/100 + ((x - 3/10) / (7/10)) * (25/100)) ≤
    (if y < 3/10 then 1/100 + (y / (3/10)) * (4/100)
     else 5/100 + ((y - 3/10) / (7/10)) * (25/100)) := by
  split_ifs with h1 h2 h2
  · linarith
  · have hx3 : x / (3/10) * (4/100) ≤ 4/100 := by
      have : x / (3/10) ≤ 1 := by rw [div_le_one (by norm_num)]; linarith
      nlinarith
    have hy3 : 0 ≤ (y - 3/10) / (7/10) * (25/100) := by
      have : 0 ≤ (y - 3/10) / (7/10) := div_nonneg (by linarith) (by norm_num)
      nlinarith
    linarith
  · linarith
  · have : (x - 3/10) / (7/10) ≤ (y - 3/10) / (7/10) := by
      apply div_le_div_of_nonneg_right ?_ (by norm_num)
      linarith
    nlinarith

/-- C6: `setThreshold x` stores exactly `clamp(f(x), 0.01, 0.3)` with
`f(x) = 0.01 + (x/0.3)·0.04` below `0.3` and
`f(x) = 0.05 + ((x−0.3)/0.7)·0.25` from `0.3` on; input `0` yields threshold
`0.01`, input `0.3` yields `0.05`, input `1` yields `0.3`, and the stored
threshold is monotonically non-decreasing over `[0, 1]`. -/
theorem setThreshold_piecewise_monotone :
    (∀ (d : Detector) (x : ℚ),
        (setThreshold d x).1.threshold =
          max (1/100) (min (3/10)
            (if x < 3/10 then 1/100 + (x / (3/10)) * (4/100)
             else 5/100 + ((x - 3/10) / (7/10)) * (25/100)))) ∧
    scaledThreshold 0 = 1/100 ∧
    scaledThreshold (3/10) = 1/20 ∧
    scaledThreshold 1 = 3/10 ∧
    (∀ x y : ℚ, 0 ≤ x → x ≤ y → y ≤ 1 →
        scaledThreshold x ≤ scaledThreshold y) := by
  refine ⟨fun d x => rfl, by norm_num [scaledThreshold], by norm_num [scaledThreshold],
    by norm_num [scaledThreshold], fun x y hx hxy hy => ?_⟩
  have := scaledThreshold_raw_mono x y hx hxy hy
  unfold scaledThreshold
  exact max_le_max (le_refl _) (min_le_min (le_refl _) this)

/-- C6 witness: the mapping evaluated through the theorem at inputs
`1/4 ≤ 1/2`. -/
theorem setThreshold_piecewise_monotone_witness :
    (0:ℚ) ≤ 1/4 ∧ (1/4:ℚ) ≤ 1/2 ∧ (1/2:ℚ) ≤ 1 ∧
    scaledThreshold (1/4) ≤ scaledThreshold (1/2) :=
  ⟨by norm_num, by norm_num, by norm_num,
   setThreshold_piecewise_monotone.2.2.2.2 (1/4) (1/2)
     (by norm_num) (by norm_num) (by norm_num)⟩

/-- A byte's recentred amplitude has square at most `1`. -/
theorem amplitude_sq_le_one (v : ℕ) (h : v ≤ 255) :
    amplitude v * amplitude v ≤ 1 := by
  have hv : (v : ℚ) ≤ 255 := by exact_mod_cast h
  have hv0 : (0 : ℚ) ≤ (v : ℚ) := by positivity
  have h1 : amplitude v ≤ 1 := by
    unfold amplitude
    rw [div_le_one (by norm_num)]
    linarith
  have h2 : -1 ≤ amplitude v := by
    unfold amplitude
    rw [le_div_iff₀ (by norm_num)]
    linarith
  nlinarith

/-- Sum of a list of values each at most `1` is at most the length. -/
theorem sum_map_le_length (l : List ℕ) (f : ℕ → ℚ) (h : ∀ x ∈ l, f x ≤ 1) :
    (l.map f).sum ≤ l.length := by
  induction l with
  | nil => simp
  | cons a rest ih =>
    simp only [List.map_cons, List.sum_cons, List.length_cons]
    have ha := h a (by simp)
    have hr := ih (fun x hx => h x (by simp [hx]))
    push_cast
    linarith

/-- The mean of the squared recentred samples lies in `[0, 1]`. -/
theorem meanSquare_mem (buffer : List ℕ) (h : ∀ v ∈ buffer, v ≤ 255) :
    0 ≤ meanSquare buffer ∧ meanSquare buffer ≤ 1 := by
  constructor
  · unfold meanSquare
    apply div_nonneg ?_ (by positivity)
    apply List.sum_nonneg
    intro q hq
    simp only [List.mem_map] at hq
    obtain ⟨v, _, rfl⟩ := hq
    exact mul_self_nonneg _
  · unfold meanSquare
    rcases Nat.eq_zero_or_pos buffer.length with h0 | hpos
    · simp [h0, List.length_eq_zero.1 h0]
    · rw [div_le_one (by exact_mod_cast hpos)]
      exact sum_map_le_length buffer _ (fun v hv => amplitude_sq_le_one v (h v hv))

/-- C7: for every raw byte buffer (values `0‥255`), the computed RMS — the
square root of the mean of the squares of `(value − 128)/128` — lies in
`[0, 1]`. -/
theorem rms_mem_unit_interval (buffer : List ℕ) (h : ∀ v ∈ buffer, v ≤ 255) :
    0 ≤ rms buffer ∧ rms buffer ≤ 1 := by
  refine ⟨Real.sqrt_nonneg _, Real.sqrt_le_one.2 ?_⟩
  have := (meanSquare_mem buffer h).2
  calc ((meanSquare buffer : ℚ) : ℝ) ≤ ((1 : ℚ) : ℝ) := by exact_mod_cast this
    _ = 1 := by norm_num

/-- C7 witness: a concrete buffer containing the extreme byte values. -/
theorem rms_mem_unit_interval_witness :
    0 ≤ rms [0, 255, 128, 60] ∧ rms [0, 255, 128, 60] ≤ 1 :=
  rms_mem_unit_interval [0, 255, 128, 60] (by decide)

/-- `recordStateTransition` keeps a history already within capacity within
capacity. -/
theorem recordStateTransition_length_le (m : Machine α) (e : HistoryEntry α)
    (h : m.stateHistory.length ≤ m.maxHistoryLength) :
    ((recordStateTransition m e).stateHistory).length ≤ m.maxHistoryLength := by
  simp only [recordStateTransition]
  split_ifs with hif
  · simp only [List.length_tail, List.length_append, List.length_singleton]
    omega
  · simp only [List.length_append, List.length_singleton, Nat.not_lt] at hif ⊢
    omega

/-- If the current history is the capacity-sized suffix of the log `K` of all
entries recorded so far, recording one more entry yields the capacity-sized
suffix of `K ++ [e]` — push then drop-oldest is exactly "keep the most recent
`maxHistoryLength`". -/
theorem recordStateTransition_suffix (m : Machine α) (e : HistoryEntry α)
    (K : List (HistoryEntry α))
    (hK : m.stateHistory = K.drop (K.length - m.maxHistoryLength)) :
    (recordStateTransition m e).stateHistory =
      (K ++ [e]).drop ((K ++ [e]).length - m.maxHistoryLength) := by
  simp only [recordStateTransition, hK, List.length_append, List.length_singleton]
  have hlen : (K.drop (K.length - m.maxHistoryLength)).length =
      K.length - (K.length - m.maxHistoryLength) := List.length_drop _ _
  rcases lt_or_ge K.length m.maxHistoryLength with hLn | hLn
  · rw [if_neg (by simp only [List.length_append, List.length_singleton, hlen]; omega)]
    have h0 : K.length - m.maxHistoryLength = 0 := by omega
    have h1 : K.length + 1 - m.maxHistoryLength = 0 := by omega
    simp [h0, h1]
  · rcases Nat.eq_zero_or_pos m.maxHistoryLength with hn0 | hn1
    · have h0 : (K.drop (K.length - m.maxHistoryLength)).length = 0 := by omega
      rw [List.length_eq_zero] at h0
      rw [if_pos (by simp [h0, hn0])]
      simp [h0, hn0]
    · have hne : K.drop (K.length - m.maxHistoryLength) ≠ [] := by
        intro hnil
        rw [hnil] at hlen
        simp at hlen
        omega
      obtain ⟨a, as, has⟩ := List.exists_cons_of_ne_nil hne
      rw [if_pos (by simp only [List.length_append, List.length_singleton, hlen]; omega)]
      rw [has]
      have htail : as = K.drop (K.length - m.maxHistoryLength + 1) := by
        have := List.tail_drop K (K.length - m.maxHistoryLength)
        rw [has] at this
        simpa using this
      rw [List.cons_append, List.tail_cons, htail]
      rw [List.drop_append_of_le_length (by omega)]
      have hidx : K.length - m.maxHistoryLength + 1 = K.length + 1 - m.maxHistoryLength := by
        omega
      rw [hidx]

/-- Every mutator call preserves the configured capacity. -/
theorem applySMOp_maxHistoryLength (m : Machine α) (op : SMOp α) :
    (applySMOp m op).maxHistoryLength = m.maxHistoryLength := by
  cases op with
  | transitionOp t d r n =>
    by_cases h : canTransitionTo m.currentState t <;>
      simp [applySMOp, transition, h, recordStateTransition]
  | forceStateOp t d r n => rfl
  | resetOp n => rfl

/-- The history a mutator call leaves behind: unchanged for a rejected
`transition`, otherwise the recorded push of the call's entry. -/
theorem applySMOp_stateHistory (m : Machine α) (op : SMOp α) :
    (applySMOp m op).stateHistory =
      match recordedEntry m op with
      | none => m.stateHistory
      | some e => (recordStateTransition m e).stateHistory := by
  cases op with
  | transitionOp t d r n =>
    by_cases h : canTransitionTo m.currentState t <;>
      simp [applySMOp, transition, recordedEntry, h, recordStateTransition]
  | forceStateOp t d r n =>
    simp [applySMOp, forceState, recordedEntry, recordStateTransition]
  | resetOp n =>
    simp [applySMOp, reset, forceState, recordedEntry, recordStateTransition]

/-- After any call sequence, the history buffer is the capacity-sized suffix
of the full log of entries recorded so far. -/
theorem runSMOps_history_suffix (ops : List (SMOp α)) (m : Machine α)
    (K : List (HistoryEntry α))
    (hK : m.stateHistory = K.drop (K.length - m.maxHistoryLength)) :
    (runSMOps m ops).stateHistory =
      (K ++ fullLog m ops).drop
        ((K ++ fullLog m ops).length - m.maxHistoryLength) := by
  induction ops generalizing m K with
  | nil => simpa [runSMOps, fullLog] using hK
  | cons op rest ih =>
    have hstep : runSMOps m (op :: rest) = runSMOps (applySMOp m op) rest := rfl
    have hmax := applySMOp_maxHistoryLength m op
    have hh := applySMOp_stateHistory m op
    cases hre : recordedEntry m op with
    | none =>
      rw [hre] at hh
      have := ih (applySMOp m op) K (by rw [hh, hmax]; exact hK)
      rw [hstep, this, hmax]
      simp [fullLog, hre]
    | some e =>
      rw [hre] at hh
      have hrec := recordStateTransition_suffix m e K hK
      have := ih (applySMOp m op) (K ++ [e]) (by rw [hh, hmax]; exact hrec)
      rw [hstep, this, hmax]
      simp [fullLog, hre, List.append_assoc]

/-- C9: the history buffer never exceeds its capacity of 20 — any call that
records an entry appends it and drops the oldest entry when the capacity
would be exceeded — so each `transition`/`forceState`/`reset` preserves the
bound, and after any call sequence from the freshly constructed machine the
history is exactly the at-most-20 most recent entries of the full log of
recorded transitions. -/
theorem stateHistory_bounded :
    (∀ (α : Type) (m : Machine α) (op : SMOp α),
        m.maxHistoryLength = 20 → m.stateHistory.length ≤ 20 →
        ((applySMOp m op).stateHistory).length ≤ 20) ∧
    (∀ (α : Type) (now : ℤ) (ops : List (SMOp α)),
        (runSMOps (initialMachine α now) ops).stateHistory =
          ((initialMachine α now).stateHistory ++ fullLog (initialMachine α now) ops).drop
            (((initialMachine α now).stateHistory ++
                fullLog (initialMachine α now) ops).length - 20) ∧
        ((runSMOps (initialMachine α now) ops).stateHistory).length ≤ 20) := by
  constructor
  · intro α m op hmax hlen
    rw [applySMOp_stateHistory]
    cases recordedEntry m op with
    | none => exact hlen
    | some e =>
      have h2 := recordStateTransition_length_le m e (by omega)
      rw [hmax] at h2
      exact h2
  · intro α now ops
    have hmax : (initialMachine α now).maxHistoryLength = 20 := rfl
    have hinit : (initialMachine α now).stateHistory =
        ((initialMachine α now).stateHistory).drop
          (((initialMachine α now).stateHistory).length -
            (initialMachine α now).maxHistoryLength) := by
      rfl
    have h := runSMOps_history_suffix ops (initialMachine α now)
      (initialMachine α now).stateHistory hinit
    rw [hmax] at h
    refine ⟨h, ?_⟩
    rw [h, List.length_drop]
    omega

/-- C9 witness: the bound holds for one concrete forced transition on the
fresh machine. -/
theorem stateHistory_bounded_witness :
    (initialMachine ℕ 0).maxHistoryLength = 20 ∧
    ((initialMachine ℕ 0).stateHistory).length ≤ 20 ∧
    ((applySMOp (initialMachine ℕ 0)
        (.forceStateOp .error none "boom" 3)).stateHistory).length ≤ 20 :=
  ⟨rfl, by decide,
   stateHistory_bounded.1 ℕ (initialMachine ℕ 0)
     (.forceStateOp .error none "boom" 3) rfl (by decide)⟩

/-- When no handler touches the subscriptions, the live `forEach` walk visits
exactly the live slots from the cursor on, in order, and leaves the
subscription state untouched. -/
theorem emitLoop_no_mutation (acts : ℕ → List BusOp) (hacts : ∀ h, acts h = []) :
    ∀ (fuel : ℕ) (st : DispatchState) (i : ℕ) (invoked : List ℕ),
      st.slots.length - i ≤ fuel →
      emitLoop acts fuel st i invoked =
        (invoked ++ (st.slots.drop i).filterMap id, st) := by
  intro fuel
  induction fuel with
  | zero =>
    intro st i invoked hfuel
    rw [emitLoop, List.drop_eq_nil_of_le (by omega)]
    simp
  | succ fuel ih =>
    intro st i invoked hfuel
    rw [emitLoop]
    by_cases hi : i < st.slots.length
    · rw [if_pos hi]
      have hdrop : st.slots.drop i = st.slots.getD i none :: st.slots.drop (i + 1) := by
        rw [List.getD_eq_getElem st.slots none hi]
        exact List.drop_eq_getElem_cons hi
      cases hslot : st.slots.getD i none with
      | none =>
        change emitLoop acts fuel st (i + 1) invoked = _
        rw [ih st (i + 1) invoked (by omega), hdrop, hslot]
        simp
      | some h =>
        change emitLoop acts fuel ((acts h).foldl applyBusOp st) (i + 1) (invoked ++ [h]) = _
        rw [hacts h]
        simp only [List.foldl_nil]
        rw [ih st (i + 1) (invoked ++ [h]) (by omega), hdrop, hslot]
        simp
    · rw [if_neg hi, List.drop_eq_nil_of_le (by omega)]
      simp

/-- C1 counterexample: `emit` does **not** dispatch to a pre-iteration
snapshot.  With handlers 1 and 2 subscribed and handler 1 unsubscribing
handler 2 during its own invocation, the dispatch invokes only handler 1 —
not the snapshot `[1, 2]` the claim predicts. -/
theorem emit_snapshot_counterexample :
    (emitLive removesOther 5 [1, 2]).1 = [1] ∧
    (emitLive removesOther 5 [1, 2]).1 ≠ [1, 2] := by
  decide

/-- C1 (amended): `emit` iterates the live subscriber set.  When no handler
mutates the subscriptions the dispatch invokes exactly the subscriber list;
but a handler unsubscribed during the dispatch before its turn is skipped by
that same dispatch, a handler subscribed during the dispatch is invoked by
that same dispatch, and a handler that unsubscribes itself still completes
its own invocation without affecting the other handlers of the current
dispatch (only future dispatches, which no longer contain it). -/
theorem emit_live_iteration :
    (∀ (acts : ℕ → List BusOp) (subs : List ℕ) (fuel : ℕ),
        (∀ h, acts h = []) → subs.length ≤ fuel →
        (emitLive acts fuel subs).1 = subs) ∧
    (emitLive removesOther 5 [1, 2]).1 = [1] ∧
    (emitLive addsThird 5 [1, 2]).1 = [1, 2, 3] ∧
    (emitLive removesSelf 5 [1, 2]).1 = [1, 2] ∧
    liveSubs (emitLive removesSelf 5 [1, 2]).2 = [2] := by
  refine ⟨fun acts subs fuel hacts hfuel => ?_, by decide, by decide, by decide, by decide⟩
  rw [emitLive, emitLoop_no_mutation acts hacts fuel _ 0 [] (by simpa using hfuel)]
  simp [List.filterMap_map, List.filterMap_some, Function.comp]

/-- C1 witness: with two handlers that leave the subscriptions alone, the
dispatch invokes exactly the subscriber list. -/
theorem emit_live_iteration_witness :
    (emitLive (fun _ => []) 3 [4, 7]).1 = [4, 7] :=
  emit_live_iteration.1 (fun _ => []) [4, 7] 3 (fun _ => rfl) (by decide)

/-- `update` never changes the configured cooldown duration. -/
theorem update_cooldownTime (d : Detector) (now : ℤ) (v : ℚ) :
    (update d now v).1.cooldownTime = d.cooldownTime := by
  simp only [update]
  split_ifs <;> rfl

/-- A tick that fires `sound-detected` was outside the cooldown window of the
last trigger, and records itself as the new last trigger. -/
theorem fires_outside_cooldown (d : Detector) (now : ℤ) (v : ℚ)
    (h : fires d now v = true) :
    now - d.lastTriggerTime > d.cooldownTime ∧
    (update d now v).1.lastTriggerTime = now := by
  simp only [fires, update] at h ⊢
  split_ifs at h ⊢ with h1 h2 h3 h4 <;> simp_all

/-- A tick that does not fire leaves the last trigger time unchanged. -/
theorem not_fires_lastTriggerTime (d : Detector) (now : ℤ) (v : ℚ)
    (h : fires d now v = false) :
    (update d now v).1.lastTriggerTime = d.lastTriggerTime := by
  simp only [fires, update] at h ⊢
  split_ifs at h ⊢ with h1 h2 h3 h4 <;> simp_all

/-- Along any tick trace, consecutive elements of
`lastTriggerTime :: detection times` are separated by more than the
cooldown. -/
theorem detections_chain (d : Detector) (ticks : List (ℤ × ℚ)) :
    List.Chain' (fun a b => b - a > d.cooldownTime)
      (d.lastTriggerTime :: detections d ticks) := by
  induction ticks generalizing d with
  | nil => simp [detections]
  | cons t rest ih =>
    obtain ⟨now, v⟩ := t
    have hcd := update_cooldownTime d now v
    have ihd := ih (update d now v).1
    rw [hcd] at ihd
    cases hf : fires d now v with
    | false =>
      have hlt := not_fires_lastTriggerTime d now v hf
      rw [hlt] at ihd
      simpa [detections, hf] using ihd
    | true =>
      have hft := fires_outside_cooldown d now v hf
      rw [hft.2] at ihd
      simp only [detections, hf, if_true, List.singleton_append]
      exact List.chain'_cons.2 ⟨hft.1, ihd⟩

/-- C3: two `sound-detected` events are never emitted within the cooldown of
each other — along every tick trace, any two detection times are separated by
more than `cooldownTime` — and on the synthetic traces: volume spikes at
`t = 0` and `t = cooldown/2 = 150` produce exactly one detection, while
spikes at `t = 0` and `t = cooldown + 1 = 301` produce two. -/
theorem soundDetected_cooldown_spacing :
    (∀ (d : Detector) (ticks : List (ℤ × ℚ)), 0 ≤ d.cooldownTime →
        List.Pairwise (fun a b => b - a > d.cooldownTime) (detections d ticks)) ∧
    detections spikeDetector [(0, 1), (150, 1)] = [0] ∧
    detections spikeDetector [(0, 1), (301, 1)] = [0, 301] := by
  refine ⟨fun d ticks hc => ?_, ?_, ?_⟩
  · have hch := (detections_chain d ticks).tail
    haveI : IsTrans ℤ (fun a b => b - a > d.cooldownTime) :=
      ⟨fun a b c hab hbc => by
        have h1 : b - a > d.cooldownTime := hab
        have h2 : c - b > d.cooldownTime := hbc
        show c - a > d.cooldownTime
        omega⟩
    exact List.chain'_iff_pairwise.1 hch
  · norm_num [detections, fires, update, spikeDetector]
  · norm_num [detections, fires, update, spikeDetector]

/-- C3 witness: the pairwise spacing bound instantiated on the two-detection
synthetic trace. -/
theorem soundDetected_cooldown_spacing_witness :
    (0 : ℤ) ≤ spikeDetector.cooldownTime ∧
    List.Pairwise (fun a b => b - a > spikeDetector.cooldownTime)
      (detections spikeDetector [(0, 1), (301, 1)]) :=
  ⟨by norm_num [spikeDetector],
   soundDetected_cooldown_spacing.1 spikeDetector [(0, 1), (301, 1)]
     (by norm_num [spikeDetector])⟩

/-- C4: when median-mode calibration completes on a tick, the new baseline is
the element at index `⌊n/2⌋` of the ascending-sorted sample list plus the
fixed `0.01` margin; and feeding the six samples
`[0.01, 0.02, 0.03, 0.04, 0.05, 0.06]` to a six-sample calibration yields
baseline `0.04 + 0.01 = 0.05`. -/
theorem calibration_median_baseline :
    (∀ (d : Detector) (now : ℤ) (v : ℚ),
        d.isEnabled = true → d.calibrating = true →
        d.calibrationSamples.length + 1 ≥ d.calibrationDuration →
        (update d now v).1.baselineVolume =
          ((d.calibrationSamples ++ [v]).insertionSort (· ≤ ·)).getD
            ((d.calibrationSamples.length + 1) / 2) 0 + 1/100) ∧
    (runUpdates calDetector
        [(0, 1/100), (1, 2/100), (2, 3/100), (3, 4/100), (4, 5/100), (5, 6/100)]
      ).baselineVolume = 1/20 := by
  constructor
  · intro d now v h1 h2 h3
    simp only [update]
    rw [if_neg (by simp [h1]), if_pos h2, if_pos (by simpa using h3)]
    simp [List.length_insertionSort]
  · norm_num [runUpdates, update, calDetector, List.insertionSort, List.orderedInsert]

/-- C4 witness: the completion formula instantiated on the sixth calibration
tick of the concrete six-sample session. -/
theorem calibration_median_baseline_witness :
    (update almostCalibrated 5 (6/100)).1.baselineVolume =
      ((almostCalibrated.calibrationSamples ++ [6/100]).insertionSort (· ≤ ·)).getD
        ((almostCalibrated.calibrationSamples.length + 1) / 2) 0 + 1/100 :=
  calibration_median_baseline.1 almostCalibrated 5 (6/100) rfl rfl
    (by norm_num [almostCalibrated, calDetector])

end Sensory
